import Mathlib

/-!
Verification of the UDP-tracker client (src/tracker.js, src/util.js,
src/torrent-parser.js) against its natural-language specification.

Buffers are modelled as `List Nat`, one element per byte.  Node buffer
reads that can throw a RangeError (out-of-range offset) are modelled as
`Option`-returning functions where `none` stands for the thrown
exception.  Randomness (crypto.randomBytes) and values derived from the
torrent descriptor are passed in as explicit parameters.
-/

namespace BitTorrent

/-- Big-endian value of a byte list (most significant byte first). -/
def beVal (l : List Nat) : Nat :=
  l.foldl (fun acc b => acc * 256 + b) 0

/-- The two big-endian bytes of a 16-bit value, as written by
Buffer.writeUInt16BE. -/
def be16 (v : Nat) : List Nat :=
  [v / 256 % 256, v % 256]

/-- The four big-endian bytes of a 32-bit value, as written by
Buffer.writeUInt32BE. -/
def be32 (v : Nat) : List Nat :=
  [v / 16777216 % 256, v / 65536 % 256, v / 256 % 256, v % 256]

/-- The eight big-endian bytes of a 64-bit value (values below 2^64 are
encoded exactly; the claims only quantify over that range). -/
def be64 (v : Nat) : List Nat :=
  be32 (v / 4294967296) ++ be32 (v % 4294967296)

/-- Buffer.readUInt32BE(offset): `none` models the RangeError thrown when
fewer than four bytes are available at `off`. -/
def readUInt32BE (buf : List Nat) (off : Nat) : Option Nat :=
  if off + 4 ≤ buf.length then some (beVal ((buf.drop off).take 4)) else none

/-- Buffer.readUInt16BE(offset): `none` models the RangeError thrown when
fewer than two bytes are available at `off`. -/
def readUInt16BE (buf : List Nat) (off : Nat) : Option Nat :=
  if off + 2 ≤ buf.length then some (beVal ((buf.drop off).take 2)) else none

/-- buf.writeUInt32BE(value, off): overwrite the four bytes at `off` with
the big-endian encoding of `value` (all source call sites are in range). -/
def writeUInt32BE (buf : List Nat) (value off : Nat) : List Nat :=
  buf.take off ++ be32 value ++ buf.drop (off + 4)

/-- buf.writeInt32BE(value, off): signed write, two's complement. -/
def writeInt32BE (buf : List Nat) (value : Int) (off : Nat) : List Nat :=
  writeUInt32BE buf (value.emod 4294967296).toNat off

/-- buf.writeUInt16BE(value, off). -/
def writeUInt16BE (buf : List Nat) (value off : Nat) : List Nat :=
  buf.take off ++ be16 value ++ buf.drop (off + 2)

/-- src.copy(dst, targetStart): Buffer.copy writes
min(src.length, dst.length - targetStart) bytes of `src` into `dst`
starting at `targetStart` (all source call sites are in range). -/
def bufCopy (src dst : List Nat) (targetStart : Nat) : List Nat :=
  let n := min src.length (dst.length - targetStart)
  dst.take targetStart ++ src.take n ++ dst.drop (targetStart + n)

/-- Result of respType (src/tracker.js lines 61 to 65): the source returns
the string connect for action 0, announce for action 1, and falls through
returning undefined otherwise; `unknown` models the undefined return. -/
inductive RespClass
  | connect
  | announce
  | unknown
deriving DecidableEq

/-- respType (src/tracker.js lines 61 to 65):
`resp.readUInt32BE(0)` followed by the two equality tests.  The outer
`none` models the RangeError that the read throws on buffers shorter
than four bytes. -/
def respType (resp : List Nat) : Option RespClass :=
  (readUInt32BE resp 0).map fun action =>
    if action = 0 then RespClass.connect
    else if action = 1 then RespClass.announce
    else RespClass.unknown

/-- The record parseConnResp returns (src/tracker.js lines 114 to 120). -/
structure ConnResp where
  action : Nat
  transactionId : Nat
  connectionId : List Nat
deriving DecidableEq

/-- parseConnResp (src/tracker.js lines 114 to 120): reads action at 0 and
transaction id at 4, and takes `resp.slice(8)` (the entire suffix from
byte 8, however long) as the connection id.  There is no length-16 check. -/
def parseConnResp (resp : List Nat) : Option ConnResp :=
  (readUInt32BE resp 0).bind fun action =>
  (readUInt32BE resp 4).map fun transactionId =>
    ⟨action, transactionId, resp.drop 8⟩

/-- One decoded peer endpoint. -/
structure Peer where
  ip : String
  port : Nat
deriving DecidableEq

/-- The per-address body of the map in parseAnnounceResp
(src/tracker.js lines 209 to 214): ip is `address.slice(0, 4).join(".")`
and port is `address.readUInt16BE(4)`; the port read throws (modelled as
`none`) when the group holds fewer than six bytes. -/
def parsePeer (address : List Nat) : Option Peer :=
  (readUInt16BE address 4).map fun port =>
    ⟨String.intercalate "." ((address.take 4).map (fun b => toString b)), port⟩

/-- The inner helper `group` of parseAnnounceResp (src/tracker.js lines
196 to 202), which is only ever invoked with groupSize 6: successive
slices `iterable.slice(i, i + 6)`; the final slice may be shorter.  The
loop is written with one case per possible final slice length so that
the recursion is structural (each round consumes the first six
elements, exactly as the loop advances i by six). -/
def group6 : List Nat → List (List Nat)
  | [] => []
  | [a] => [[a]]
  | [a, b] => [[a, b]]
  | [a, b, c] => [[a, b, c]]
  | [a, b, c, d] => [[a, b, c, d]]
  | [a, b, c, d, e] => [[a, b, c, d, e]]
  | a :: b :: c :: d :: e :: f :: rest => [a, b, c, d, e, f] :: group6 rest

/-- Array.prototype.map over the groups: a throw inside the callback
aborts the whole map, so the result is `none` as soon as one group fails
to parse. -/
def mapPeers : List (List Nat) → Option (List Peer)
  | [] => some []
  | g :: gs =>
    match parsePeer g, mapPeers gs with
    | some p, some ps => some (p :: ps)
    | _, _ => none

/-- The record parseAnnounceResp returns (src/tracker.js lines 204 to
215).  Note the source record has no interval field: the four reads are
action at 0, transactionId at 4, leechers at 8 and seeders at 12, even
though the layout comment directly above the function (lines 185 to 193)
places interval at 8, leechers at 12 and seeders at 16. -/
structure AnnounceResp where
  action : Nat
  transactionId : Nat
  leechers : Nat
  seeders : Nat
  peers : List Peer
deriving DecidableEq

/-- parseAnnounceResp (src/tracker.js lines 195 to 216).  Field reads in
source evaluation order; peers are the 6-byte groups of
`resp.slice(20)`. -/
def parseAnnounceResp (resp : List Nat) : Option AnnounceResp :=
  (readUInt32BE resp 0).bind fun action =>
  (readUInt32BE resp 4).bind fun transactionId =>
  (readUInt32BE resp 8).bind fun leechers =>
  (readUInt32BE resp 12).bind fun seeders =>
  (mapPeers (group6 (resp.drop 20))).map fun peers =>
    ⟨action, transactionId, leechers, seeders, peers⟩

/-- The 16-byte buffer assembled inside buildConnReq (src/tracker.js
lines 75 to 105): Buffer.alloc(16), magic constant written as two 32-bit
halves 0x417 and 0x27101980, action 0 at offset 8, and the four random
transaction-id bytes (`txId`) copied to offset 12. -/
def connReqBuf (txId : List Nat) : List Nat :=
  let buf := List.replicate 16 0
  let buf := writeUInt32BE buf 0x417 0
  let buf := writeUInt32BE buf 0x27101980 4
  let buf := writeUInt32BE buf 0 8
  bufCopy txId buf 12

/-- buildConnReq (src/tracker.js lines 75 to 105): the function assembles
`connReqBuf` but has no return statement, so the call expression
evaluates to undefined, modelled as `none`. -/
def buildConnReq (txId : List Nat) : Option (List Nat) :=
  let _buf := connReqBuf txId
  none

/-- The `message.length` access inside udpSend (src/tracker.js line 53),
applied to the message value handed to it; `none` models the TypeError
thrown when the message is undefined. -/
def udpSendMessageLength (message : Option (List Nat)) : Option Nat :=
  message.map List.length

/-- buildAnnounceReq (src/tracker.js lines 143 to 174).  `uninit` is the
arbitrary initial content of `Buffer.allocUnsafe(98)`; `txId` and `key`
stand for the two crypto.randomBytes(4) draws; `infoHash`, `peerId` and
`sizeBuf` stand for torrentParser.infoHash(torrent), util.getId() and
torrentParser.size(torrent).  The writes follow the source line by line;
in particular the event write and the ip-address write both target
offset 80, and no write ever touches offsets 84 to 87. -/
def buildAnnounceReq (connId infoHash peerId sizeBuf txId key : List Nat)
    (port : Nat) (uninit : List Nat) : List Nat :=
  let buf := uninit
  -- connection id
  let buf := bufCopy connId buf 0
  -- action
  let buf := writeUInt32BE buf 1 8
  -- transaction id
  let buf := bufCopy txId buf 12
  -- info hash
  let buf := bufCopy infoHash buf 16
  -- peer id
  let buf := bufCopy peerId buf 36
  -- downloaded
  let buf := bufCopy (List.replicate 8 0) buf 56
  -- left
  let buf := bufCopy sizeBuf buf 64
  -- uploaded
  let buf := bufCopy (List.replicate 8 0) buf 72
  -- event
  let buf := writeUInt32BE buf 0 80
  -- ip address (source line 165 writes offset 80 again, not 84)
  let buf := writeUInt32BE buf 0 80
  -- key
  let buf := bufCopy key buf 88
  -- num want
  let buf := writeInt32BE buf (-1) 92
  -- port
  writeUInt16BE buf port 96

/-- Observable effect of one run of the socket message handler. -/
inductive HandlerEffect
  | deliverPeers (peers : List Peer)
  | logUnknown
  | crash
deriving DecidableEq

/-- The socket message handler inside getPeers (src/tracker.js lines 30
to 45).  The connect branch parses the response and then evaluates
`buildAnnounceReq(connResp.connectionId)`: the declared torrent parameter
is undefined there, so `torrentParser.infoHash(torrent)` dereferences
undefined and throws (and `util.getId` is not an exported function of
util.js, which exports genId), hence the branch crashes after a
successful parse.  No branch compares any transaction id. -/
def onMessage (response : List Nat) : HandlerEffect :=
  match respType response with
  | some RespClass.connect =>
    match parseConnResp response with
    | some _connResp => HandlerEffect.crash
    | none => HandlerEffect.crash
  | some RespClass.announce =>
    match parseAnnounceResp response with
    | some announceResp => HandlerEffect.deliverPeers announceResp.peers
    | none => HandlerEffect.crash
  | some RespClass.unknown => HandlerEffect.logUnknown
  | none => HandlerEffect.crash

/-- The torrent descriptor shape consumed by size (the full
torrent-parser snapshot): an optional multi-file list, kept as the list
of per-file length fields, and the single length field.  A present but
empty files array is truthy in the source, so presence is modelled by
`Option`, not by non-emptiness. -/
structure TorrentInfo where
  files : Option (List Nat)
  length : Nat
deriving DecidableEq

/-- A torrent descriptor: the info sub-dictionary fields used by size. -/
structure Torrent where
  info : TorrentInfo
deriving DecidableEq

/-- Array.prototype.reduce((a, b) => a + b) with no initial value: throws
a TypeError on an empty array, modelled as `none`.  The source adds
IEEE-754 doubles, which is exact for integer operands only while every
running total stays within 2^53; since the summands are non-negative,
every running total is bounded by the final total, so this exact-Nat
model is faithful precisely when the final total is below 2^53, and the
size theorem restricts its total to that range. -/
def jsReduceAdd : List Nat → Option Nat
  | [] => none
  | a :: rest => some (rest.foldl (fun x y => x + y) a)

/-- The inner `const size` of size (torrent-parser snapshot): the
multi-file sum when `torrent.info.files` is present (truthy), else the
single length field. -/
def totalSize (t : Torrent) : Option Nat :=
  match t.info.files with
  | some lens => jsReduceAdd lens
  | none => some t.info.length

/-- size (torrent-parser snapshot): `bignum.toBuffer(size, size 8)`,
the eight big-endian bytes of the computed total. -/
def size (t : Torrent) : Option (List Nat) :=
  (totalSize t).map be64

/-- The eight bytes of the fixed client tag written by genId
(src/util.js line 16): Buffer.from of the ASCII string -AT0001- . -/
def asciiTag : List Nat := [45, 65, 84, 48, 48, 48, 49, 45]

/-- genId (src/util.js lines 13 to 19), with the module-level `let id`
cache made explicit: `st` is the cache before the call, `rnd` the
20 random bytes crypto.randomBytes(20) would return if drawn.  On a cold
cache the tag overwrites the first 8 random bytes and the result is
cached; on a warm cache the cached value is returned unchanged. -/
def genId : Option (List Nat) → List Nat → List Nat × Option (List Nat)
  | none, rnd =>
    let newId := bufCopy asciiTag rnd 0
    (newId, some newId)
  | some cached, _ => (cached, some cached)

/-! Helper lemmas about the byte-level primitives. -/

theorem readUInt32BE_eq_some (buf : List Nat) (off : Nat) (h : off + 4 ≤ buf.length) :
    readUInt32BE buf off = some (beVal ((buf.drop off).take 4)) := by
  simp [readUInt32BE, h]

theorem readUInt32BE_eq_none (buf : List Nat) (off : Nat) (h : buf.length < off + 4) :
    readUInt32BE buf off = none := by
  simp only [readUInt32BE, ite_eq_right_iff]
  intro hc
  omega

theorem readUInt16BE_eq_none (buf : List Nat) (off : Nat) (h : buf.length < off + 2) :
    readUInt16BE buf off = none := by
  simp only [readUInt16BE, ite_eq_right_iff]
  intro hc
  omega

theorem length_be64 (v : Nat) : (be64 v).length = 8 := by
  simp [be64, be32]

theorem beVal_be64 (v : Nat) (h : v < 18446744073709551616) : beVal (be64 v) = v := by
  simp only [beVal, be64, be32, List.foldl]
  omega

theorem foldl_add_eq_sum (a : Nat) (l : List Nat) :
    l.foldl (fun x y => x + y) a = a + l.sum := by
  induction l generalizing a with
  | nil => simp
  | cons b t ih => simp only [List.foldl, List.sum_cons, ih]; omega

theorem length_bufCopy (src dst : List Nat) (ts : Nat) (h : ts ≤ dst.length) :
    (bufCopy src dst ts).length = dst.length := by
  simp only [bufCopy, List.length_append, List.length_take, List.length_drop]
  omega

theorem length_write32 (buf : List Nat) (v off : Nat) (h : off + 4 ≤ buf.length) :
    (writeUInt32BE buf v off).length = buf.length := by
  simp only [writeUInt32BE, be32, List.length_append, List.length_take, List.length_drop,
    List.length_cons, List.length_nil]
  omega

theorem length_write16 (buf : List Nat) (v off : Nat) (h : off + 2 ≤ buf.length) :
    (writeUInt16BE buf v off).length = buf.length := by
  simp only [writeUInt16BE, be16, List.length_append, List.length_take, List.length_drop,
    List.length_cons, List.length_nil]
  omega

theorem take_bufCopy (src dst : List Nat) (ts m : Nat) (hm : m ≤ ts) (hd : m ≤ dst.length) :
    (bufCopy src dst ts).take m = dst.take m := by
  have hA : m ≤ (dst.take ts).length := by simp only [List.length_take]; omega
  have h1 : (bufCopy src dst ts).take m = (dst.take ts).take m := by
    simp only [bufCopy, List.append_assoc]
    exact List.take_append_of_le_length hA
  rw [h1, List.take_take]
  congr 1
  omega

theorem take_write32 (buf : List Nat) (v off m : Nat) (hm : m ≤ off) (hb : m ≤ buf.length) :
    (writeUInt32BE buf v off).take m = buf.take m := by
  have hA : m ≤ (buf.take off).length := by simp only [List.length_take]; omega
  have h1 : (writeUInt32BE buf v off).take m = (buf.take off).take m := by
    simp only [writeUInt32BE, List.append_assoc]
    exact List.take_append_of_le_length hA
  rw [h1, List.take_take]
  congr 1
  omega

theorem take_write16 (buf : List Nat) (v off m : Nat) (hm : m ≤ off) (hb : m ≤ buf.length) :
    (writeUInt16BE buf v off).take m = buf.take m := by
  have hA : m ≤ (buf.take off).length := by simp only [List.length_take]; omega
  have h1 : (writeUInt16BE buf v off).take m = (buf.take off).take m := by
    simp only [writeUInt16BE, List.append_assoc]
    exact List.take_append_of_le_length hA
  rw [h1, List.take_take]
  congr 1
  omega

/-- A group list built from a byte list whose length is not a multiple of
six always contains a final short group whose port read fails, so the
peer map fails as a whole. -/
theorem mapPeers_group6_none_aux :
    ∀ (n : Nat) (xs : List Nat), xs.length ≤ n → xs.length % 6 ≠ 0 →
      mapPeers (group6 xs) = none := by
  intro n
  induction n with
  | zero =>
    intro xs hle h6
    have : xs.length = 0 := by omega
    simp [this] at h6
  | succ k ih =>
    intro xs hle h6
    match xs with
    | [] => simp at h6
    | [a] => simp [group6, mapPeers, parsePeer, readUInt16BE]
    | [a, b] => simp [group6, mapPeers, parsePeer, readUInt16BE]
    | [a, b, c] => simp [group6, mapPeers, parsePeer, readUInt16BE]
    | [a, b, c, d] => simp [group6, mapPeers, parsePeer, readUInt16BE]
    | [a, b, c, d, e] => simp [group6, mapPeers, parsePeer, readUInt16BE]
    | a :: b :: c :: d :: e :: f :: rest =>
      have hlen : (a :: b :: c :: d :: e :: f :: rest).length = rest.length + 6 := by simp
      have hr := ih rest (by omega) (by omega)
      show mapPeers ([a, b, c, d, e, f] :: group6 rest) = none
      simp [mapPeers, hr, parsePeer, readUInt16BE]

theorem mapPeers_group6_none (xs : List Nat) (h : xs.length % 6 ≠ 0) :
    mapPeers (group6 xs) = none :=
  mapPeers_group6_none_aux xs.length xs le_rfl h

/-! Decomposition lemmas: how the decoders act on a datagram split into
its 4-byte action field, 4-byte transaction-id field, and remainder. -/

theorem respType_append (pre rest : List Nat) (hp : pre.length = 4) :
    respType (pre ++ rest) =
      some (if beVal pre = 0 then RespClass.connect
        else if beVal pre = 1 then RespClass.announce else RespClass.unknown) := by
  have ht : (pre ++ rest).take 4 = pre := List.take_left' hp
  rw [respType, readUInt32BE_eq_some _ _ (by simp only [List.length_append, hp]; omega)]
  simp only [List.drop_zero, ht, Option.map_some']

theorem parseConnResp_append (pre mid rest : List Nat) (hp : pre.length = 4)
    (hm : mid.length = 4) :
    parseConnResp (pre ++ mid ++ rest) = some ⟨beVal pre, beVal mid, rest⟩ := by
  have hlen : (pre ++ mid ++ rest).length = 8 + rest.length := by simp [hp, hm]; omega
  have hd4 : (pre ++ mid ++ rest).drop 4 = mid ++ rest := by
    rw [List.append_assoc]
    exact List.drop_left' hp
  have hd8 : (pre ++ mid ++ rest).drop 8 = rest :=
    List.drop_left' (by simp [hp, hm])
  have ht4 : (pre ++ mid ++ rest).take 4 = pre := by
    rw [List.append_assoc]
    exact List.take_left' hp
  have ht4b : ((pre ++ mid ++ rest).drop 4).take 4 = mid := by
    rw [hd4]
    exact List.take_left' hm
  rw [parseConnResp, readUInt32BE_eq_some _ _ (by omega),
    readUInt32BE_eq_some _ _ (by omega)]
  simp only [List.drop_zero, ht4, ht4b, hd8, Option.some_bind, Option.map_some']

theorem parseAnnounceResp_append (pre mid post : List Nat) (hp : pre.length = 4)
    (hm : mid.length = 4) :
    parseAnnounceResp (pre ++ mid ++ post) =
      if 8 ≤ post.length then
        (mapPeers (group6 (post.drop 12))).map fun peers =>
          ⟨beVal pre, beVal mid, beVal (post.take 4), beVal ((post.drop 4).take 4), peers⟩
      else none := by
  have hlen : (pre ++ mid ++ post).length = 8 + post.length := by simp [hp, hm]; omega
  have hd4 : (pre ++ mid ++ post).drop 4 = mid ++ post := by
    rw [List.append_assoc]
    exact List.drop_left' hp
  have hd8 : (pre ++ mid ++ post).drop 8 = post :=
    List.drop_left' (by simp [hp, hm])
  have hd12 : (pre ++ mid ++ post).drop 12 = post.drop 4 := by
    rw [(by norm_num : (12 : Nat) = 8 + 4), ← List.drop_drop, hd8]
  have hd20 : (pre ++ mid ++ post).drop 20 = post.drop 12 := by
    rw [(by norm_num : (20 : Nat) = 8 + 12), ← List.drop_drop, hd8]
  have ht4 : (pre ++ mid ++ post).take 4 = pre := by
    rw [List.append_assoc]
    exact List.take_left' hp
  have ht4b : ((pre ++ mid ++ post).drop 4).take 4 = mid := by
    rw [hd4]
    exact List.take_left' hm
  by_cases h8 : 8 ≤ post.length
  · rw [parseAnnounceResp, readUInt32BE_eq_some _ _ (by omega),
      readUInt32BE_eq_some _ _ (by omega), readUInt32BE_eq_some _ _ (by omega),
      readUInt32BE_eq_some _ _ (by omega), if_pos h8]
    simp only [List.drop_zero, ht4, ht4b, hd8, hd12, hd20, Option.some_bind]
  · rw [if_neg h8]
    by_cases h4 : 4 ≤ post.length
    · rw [parseAnnounceResp, readUInt32BE_eq_some _ _ (by omega),
        readUInt32BE_eq_some _ _ (by omega), readUInt32BE_eq_some _ _ (by omega),
        readUInt32BE_eq_none _ _ (by omega)]
      simp
    · rw [parseAnnounceResp, readUInt32BE_eq_some _ _ (by omega),
        readUInt32BE_eq_some _ _ (by omega), readUInt32BE_eq_none _ _ (by omega)]
      simp

/-! Claim theorems. -/

set_option maxRecDepth 4096 in
/-- Claim C2 (code_bug): the announce request is 98 bytes with connection
id at 0 to 7, action 1 at 8 to 11, transaction id at 12 to 15, hash at 16
to 35, peer id at 36 to 55, zero downloaded at 56 to 63, size at 64 to 71,
zero uploaded at 72 to 79, key at 88 to 91, num_want -1 at 92 to 95 and
port at 96 to 97, but the claimed distinct event and ip-address fields do
not both exist: the source writes the ip-address zero at offset 80 on top
of the event write, so offsets 84 to 87 are never written and keep the
uninitialized allocUnsafe contents (here 9, 9, 9, 9) instead of the
claimed zero. -/
theorem buildAnnounceReq_leaves_84_to_87_uninitialized :
    buildAnnounceReq [170, 187, 204, 221, 238, 255, 0, 17] (List.replicate 20 2)
        (List.replicate 20 3) [0, 0, 0, 0, 0, 0, 1, 244] [4, 4, 4, 4] [5, 5, 5, 5] 6881
        (List.replicate 84 7 ++ [9, 9, 9, 9] ++ List.replicate 10 7) =
      [170, 187, 204, 221, 238, 255, 0, 17] ++ [0, 0, 0, 1] ++ [4, 4, 4, 4] ++
      List.replicate 20 2 ++ List.replicate 20 3 ++ List.replicate 8 0 ++
      [0, 0, 0, 0, 0, 0, 1, 244] ++ List.replicate 8 0 ++
      [0, 0, 0, 0] ++ [9, 9, 9, 9] ++ [5, 5, 5, 5] ++ [255, 255, 255, 255] ++ [26, 225] := by
  decide

/-- Claim C3 (code_bug): on the 32-byte response whose wire layout carries
action 1, transaction id 5, interval 1800 at offsets 8 to 11, leechers 3
at 12 to 15, seeders 7 at 16 to 19 and the two example peer groups, the
decoder returns a record with no interval field whose leechers field holds
1800 (the interval bytes) and whose seeders field holds 3 (the leechers
bytes); only the peer list decodes as the claim states. -/
theorem parseAnnounceResp_shifts_fields_drops_interval :
    parseAnnounceResp ([0, 0, 0, 1] ++ [0, 0, 0, 5] ++ [0, 0, 7, 8] ++ [0, 0, 0, 3] ++
        [0, 0, 0, 7] ++ [192, 168, 1, 1, 26, 225] ++ [10, 0, 0, 5, 200, 213]) =
      some ⟨1, 5, 1800, 3, [⟨"192.168.1.1", 6881⟩, ⟨"10.0.0.5", 51413⟩]⟩ := by
  decide

/-- Claim C4 (code_bug): the end-to-end scenario can never run, because
getPeers crashes on its very first step: buildConnReq returns undefined
(missing return statement), and udpSend immediately reads
`message.length` from that undefined value, throwing a TypeError before
any datagram is sent or received, for every transaction id draw. -/
theorem getPeers_initial_send_crashes (txId : List Nat) :
    udpSendMessageLength (buildConnReq txId) = none := rfl

/-- Claim C5 (code_bug): buildConnReq assembles exactly the 16-byte
message the claim describes (magic constant 0x0000041727101980 at 0 to 7,
action 0 at 8 to 11, the random transaction id at 12 to 15, matching the
buffer shown in the source comment), but the function body has no return
statement, so the caller receives undefined instead of the buffer. -/
theorem buildConnReq_assembles_but_returns_undefined :
    connReqBuf [166, 236, 107, 125] =
      [0, 0, 4, 23, 39, 16, 25, 128, 0, 0, 0, 0, 166, 236, 107, 125] ∧
    buildConnReq [166, 236, 107, 125] = none := by
  decide

/-- Claim C7, amended: for every buffer of length at least four, respType
returns connect when the big-endian action at offset 0 is 0, announce
when it is 1, and the unknown (undefined) result otherwise; but on
buffers shorter than four bytes the action read throws a RangeError
(modelled `none`) instead of returning unknown. -/
theorem respType_classifies_by_action (resp : List Nat) (a : Nat) :
    (readUInt32BE resp 0 = some a →
      ((respType resp = some RespClass.connect ↔ a = 0) ∧
       (respType resp = some RespClass.announce ↔ a = 1) ∧
       (a ≠ 0 → a ≠ 1 → respType resp = some RespClass.unknown))) ∧
    (resp.length < 4 → respType resp = none) := by
  constructor
  · intro h
    rw [respType, h]
    by_cases h0 : a = 0
    · subst h0
      simp
    · by_cases h1 : a = 1
      · subst h1
        simp
      · simp [h0, h1]
  · intro h
    rw [respType, readUInt32BE_eq_none _ _ (by omega)]
    rfl

/-- Witness for C7: a five-byte buffer with action 1 classifies as
announce. -/
theorem respType_classifies_by_action_witness :
    respType [0, 0, 0, 1, 99] = some RespClass.announce := by
  have h := respType_classifies_by_action [0, 0, 0, 1, 99] 1
  exact (h.1 (by decide)).2.1.mpr rfl

/-- Counterexample for C7: the claim says buffers shorter than four bytes
classify as unknown without crashing, but the action read throws
(modelled `none`, not `some unknown`) on a three-byte buffer. -/
theorem respType_throws_on_short_buffer : respType [1, 2, 3] = none := by decide

/-- Claim C9 (confirmed): on the first call (empty cache) genId returns a
20-byte value whose first 8 bytes are the ASCII client tag -AT0001- and
whose remaining 12 bytes are the corresponding random draw, and caches
it; any later call returns exactly the cached value and leaves the cache
unchanged, whatever fresh randomness would have been available. -/
theorem genId_first_call_then_cached (rnd rnd2 : List Nat) (h : rnd.length = 20) :
    (genId none rnd).1.length = 20 ∧
    (genId none rnd).1.take 8 = asciiTag ∧
    (genId none rnd).1.drop 8 = rnd.drop 8 ∧
    genId (genId none rnd).2 rnd2 = ((genId none rnd).1, (genId none rnd).2) := by
  have hbc : bufCopy asciiTag rnd 0 = asciiTag ++ rnd.drop 8 := by
    simp [bufCopy, asciiTag, h]
  refine ⟨?_, ?_, ?_, ?_⟩ <;> simp only [genId, hbc]
  · simp [asciiTag, List.length_append, List.length_drop, h]
  · exact List.take_left' (by simp [asciiTag])
  · exact List.drop_left' (by simp [asciiTag])

/-- Witness for C9 at a concrete random draw: the tag survives at the
head and a second call returns the cached pair unchanged. -/
theorem genId_first_call_then_cached_witness :
    (genId none (List.replicate 20 7)).1.take 8 = asciiTag ∧
    genId (genId none (List.replicate 20 7)).2 (List.replicate 20 9) =
      ((genId none (List.replicate 20 7)).1, (genId none (List.replicate 20 7)).2) := by
  have h := genId_first_call_then_cached (List.replicate 20 7) (List.replicate 20 9) (by decide)
  exact ⟨h.2.1, h.2.2.2⟩

/-- Claim C6, amended: parseAnnounceResp performs no explicit length
validation.  Inputs shorter than 16 bytes fail (an out-of-range header
read throws); inputs of length 16 to 19 decode successfully with an
empty peer list, contrary to the claimed length-below-20 rejection; and
inputs of length at least 20 whose excess over 20 is not a multiple of
six fail when the port of the final short peer group is read, so a
length-23 input fails and never yields a partial peer list. -/
theorem parseAnnounceResp_length_behavior (resp : List Nat) :
    (resp.length < 16 → parseAnnounceResp resp = none) ∧
    (16 ≤ resp.length → resp.length < 20 →
      ∃ r, parseAnnounceResp resp = some r ∧ r.peers = []) ∧
    (20 ≤ resp.length → (resp.length - 20) % 6 ≠ 0 → parseAnnounceResp resp = none) := by
  refine ⟨?_, ?_, ?_⟩
  · intro hlen
    have h12 : readUInt32BE resp 12 = none := readUInt32BE_eq_none _ _ (by omega)
    rw [parseAnnounceResp]
    cases h0 : readUInt32BE resp 0 <;> cases h4 : readUInt32BE resp 4 <;>
      cases h8 : readUInt32BE resp 8 <;> simp [h12]
  · intro h16 h20
    have hd : resp.drop 20 = [] := List.drop_eq_nil_of_le (by omega)
    rw [parseAnnounceResp, readUInt32BE_eq_some _ _ (by omega),
      readUInt32BE_eq_some _ _ (by omega), readUInt32BE_eq_some _ _ (by omega),
      readUInt32BE_eq_some _ _ (by omega), hd]
    exact ⟨_, rfl, rfl⟩
  · intro h20 hmod
    have hm : mapPeers (group6 (resp.drop 20)) = none :=
      mapPeers_group6_none _ (by simp only [List.length_drop]; omega)
    rw [parseAnnounceResp, readUInt32BE_eq_some _ _ (by omega),
      readUInt32BE_eq_some _ _ (by omega), readUInt32BE_eq_some _ _ (by omega),
      readUInt32BE_eq_some _ _ (by omega), hm]
    rfl

/-- Witness for C6: a 23-byte input (excess 3 over 20) fails, exactly as
the claim demands for that length. -/
theorem parseAnnounceResp_length_behavior_witness :
    parseAnnounceResp (List.replicate 23 0) = none :=
  (parseAnnounceResp_length_behavior (List.replicate 23 0)).2.2 (by decide) (by decide)

/-- Counterexample for C6: the claim says every input of length below 20
fails, but a 16-byte input decodes successfully to a response with an
empty peer list. -/
theorem parseAnnounceResp_accepts_length_16 :
    parseAnnounceResp (List.replicate 16 0) = some ⟨0, 0, 0, 0, []⟩ := by decide

/-- Claim C8, amended: for every descriptor on which the total-size
computation succeeds (single length field, or a non-empty multi-file
list: an empty list makes the initial-value-free reduce throw) and whose
total stays below 2^53 (the range on which the source's double additions
of the integer lengths are exact, and hence the range the exact-Nat
model covers), size returns exactly the eight big-endian bytes of that
total, which is the single length or the sum of the per-file lengths.
Above 2^53 the source's floating-point addition rounds, so the exact
encoding claimed up to 64 bits is not what the code computes there. -/
theorem size_eight_byte_total (t : Torrent) (total : Nat)
    (htot : totalSize t = some total) (hfit : total < 9007199254740992) :
    (t.info.files = none → total = t.info.length) ∧
    (∀ lens, t.info.files = some lens → total = lens.sum) ∧
    size t = some (be64 total) ∧ (be64 total).length = 8 ∧ beVal (be64 total) = total := by
  have hsize : size t = some (be64 total) := by
    rw [size, htot]
    rfl
  refine ⟨?_, ?_, hsize, length_be64 _, beVal_be64 _ (by omega)⟩
  · intro hf
    simp only [totalSize, hf] at htot
    exact (Option.some_inj.mp htot).symm
  · intro lens hf
    simp only [totalSize, hf] at htot
    cases lens with
    | nil => simp [jsReduceAdd] at htot
    | cons a rest =>
      simp only [jsReduceAdd, foldl_add_eq_sum] at htot
      rw [← Option.some_inj.mp htot]
      simp

/-- Witness for C8 at the claimed concrete descriptor: file lengths 100,
250 and 150 encode as the eight big-endian bytes of 500. -/
theorem size_eight_byte_total_witness :
    size ⟨⟨some [100, 250, 150], 0⟩⟩ = some [0, 0, 0, 0, 0, 0, 1, 244] := by
  have h := size_eight_byte_total ⟨⟨some [100, 250, 150], 0⟩⟩ 500 (by decide) (by decide)
  rw [h.2.2.1]
  rfl

/-- Counterexample for C8: a descriptor whose multi-file list is present
but empty has total content size 0, which fits in 64 bits, yet size
fails (the reduce with no initial value throws) instead of returning the
eight-byte encoding of 0. -/
theorem size_fails_on_empty_file_list : size ⟨⟨some [], 0⟩⟩ = none := rfl

/-- Claim C1, amended: the message handler never inspects transaction
ids.  Its observable effect is invariant under arbitrary replacement of
the transaction-id field (bytes 4 to 7) of the incoming datagram, so a
datagram is dispatched on its action classification alone: an
announce-classified, parseable datagram invokes the callback whatever
its transaction id, and only a datagram whose action is neither 0 nor 1
is discarded with a log and without invoking the callback. -/
theorem onMessage_ignores_transaction_id (pre mid mid2 post : List Nat)
    (hp : pre.length = 4) (hm : mid.length = 4) (hm2 : mid2.length = 4) :
    onMessage (pre ++ mid ++ post) = onMessage (pre ++ mid2 ++ post) := by
  have r1 : respType (pre ++ mid ++ post) =
      some (if beVal pre = 0 then RespClass.connect
        else if beVal pre = 1 then RespClass.announce else RespClass.unknown) := by
    rw [List.append_assoc]
    exact respType_append pre (mid ++ post) hp
  have r2 : respType (pre ++ mid2 ++ post) =
      some (if beVal pre = 0 then RespClass.connect
        else if beVal pre = 1 then RespClass.announce else RespClass.unknown) := by
    rw [List.append_assoc]
    exact respType_append pre (mid2 ++ post) hp
  have p1 := parseConnResp_append pre mid post hp hm
  have p2 := parseConnResp_append pre mid2 post hp hm2
  have a1 := parseAnnounceResp_append pre mid post hp hm
  have a2 := parseAnnounceResp_append pre mid2 post hp hm2
  by_cases h0 : beVal pre = 0
  · simp only [onMessage, r1, r2, if_pos h0, p1, p2]
  · by_cases h1 : beVal pre = 1
    · simp only [onMessage, r1, r2, if_neg h0, if_pos h1, a1, a2]
      by_cases h8 : 8 ≤ post.length
      · cases hmp : mapPeers (group6 (post.drop 12)) with
        | none => simp [h8, hmp]
        | some ps => simp [h8, hmp]
      · simp [h8]
    · simp only [onMessage, r1, r2, if_neg h0, if_neg h1]

/-- Witness for C1 at a concrete announce datagram: swapping the
transaction-id bytes 1, 2, 3, 4 for 166, 236, 107, 125 leaves the
handler effect unchanged. -/
theorem onMessage_ignores_transaction_id_witness :
    onMessage ([0, 0, 0, 1] ++ [1, 2, 3, 4] ++
        ([0, 0, 7, 8] ++ [0, 0, 0, 3] ++ [0, 0, 0, 7] ++ [192, 168, 1, 1, 26, 225] ++
          [10, 0, 0, 5, 200, 213])) =
      onMessage ([0, 0, 0, 1] ++ [166, 236, 107, 125] ++
        ([0, 0, 7, 8] ++ [0, 0, 0, 3] ++ [0, 0, 0, 7] ++ [192, 168, 1, 1, 26, 225] ++
          [10, 0, 0, 5, 200, 213])) :=
  onMessage_ignores_transaction_id _ _ _ _ (by decide) (by decide) (by decide)

/-- Counterexample for C1: the claim says a datagram whose transaction id
differs from the pending one leaves the session unchanged and never
reaches the callback, but an announce-classified datagram carrying
transaction-id bytes 1, 2, 3, 4 (different from the pending draw
166, 236, 107, 125 of the connect-request example in the source comment)
still has its peer list delivered to the callback. -/
theorem onMessage_delivers_despite_mismatched_transaction_id :
    ([1, 2, 3, 4] : List Nat) ≠ [166, 236, 107, 125] ∧
    onMessage ([0, 0, 0, 1] ++ [1, 2, 3, 4] ++ [0, 0, 7, 8] ++ [0, 0, 0, 3] ++ [0, 0, 0, 7] ++
        [192, 168, 1, 1, 26, 225] ++ [10, 0, 0, 5, 200, 213]) =
      HandlerEffect.deliverPeers [⟨"192.168.1.1", 6881⟩, ⟨"10.0.0.5", 51413⟩] := by
  decide

/-- Claim C10, amended: parseConnResp succeeds on every input of length
at least 8 with no length-16 validation, and its connectionId is the
entire suffix of the input from byte 8 (length n - 8 for an n-byte
input); the copy of that suffix into the fresh 98-byte announce buffer
at offset 0 (the first operation of buildAnnounceReq, source line 147)
transfers the whole suffix verbatim only when the suffix fits the
98-byte target, that is for responses of at most 106 bytes — a longer
suffix is truncated at 98 bytes by Buffer.copy (see the counterexample)
— and for the ordinary 16-byte response the built announce request
starts with exactly those 8 bytes. -/
theorem parseConnResp_whole_suffix_connectionId
    (resp uninit ihash pid sz tx key : List Nat) (p : Nat)
    (h8 : 8 ≤ resp.length) (h106 : resp.length ≤ 106) (hu : uninit.length = 98) :
    ∃ r, parseConnResp resp = some r ∧
      r.connectionId = resp.drop 8 ∧
      r.connectionId.length = resp.length - 8 ∧
      bufCopy r.connectionId uninit 0 = r.connectionId ++ uninit.drop (resp.length - 8) ∧
      (resp.length = 16 →
        (buildAnnounceReq r.connectionId ihash pid sz tx key p uninit).take 8 =
          r.connectionId) := by
  have hpc : parseConnResp resp =
      some ⟨beVal ((resp.drop 0).take 4), beVal ((resp.drop 4).take 4), resp.drop 8⟩ := by
    rw [parseConnResp, readUInt32BE_eq_some _ _ (by omega),
      readUInt32BE_eq_some _ _ (by omega)]
    rfl
  have htake : (resp.drop 8).take (resp.length - 8) = resp.drop 8 := by
    rw [← List.length_drop]
    exact List.take_length _
  have hmin : min (resp.length - 8) 98 = resp.length - 8 := by omega
  have hcopy : bufCopy (resp.drop 8) uninit 0 =
      resp.drop 8 ++ uninit.drop (resp.length - 8) := by
    simp only [bufCopy, List.length_drop, hu, Nat.sub_zero, Nat.zero_add, List.take_zero,
      List.nil_append, hmin, htake]
  refine ⟨_, hpc, rfl, by simp, hcopy, ?_⟩
  intro h16
  have hc8 : (resp.drop 8).length = 8 := by simp [h16]
  have hcopy8 : bufCopy (resp.drop 8) uninit 0 = resp.drop 8 ++ uninit.drop 8 := by
    rw [hcopy, h16]
  simp only [buildAnnounceReq]
  set b1 := bufCopy (resp.drop 8) uninit 0 with hb1
  have L1 : b1.length = 98 := by
    rw [hb1, length_bufCopy _ _ _ (by omega)]
    exact hu
  set b2 := writeUInt32BE b1 1 8 with hb2
  have L2 : b2.length = 98 := by rw [hb2, length_write32 _ _ _ (by omega)]; exact L1
  set b3 := bufCopy tx b2 12 with hb3
  have L3 : b3.length = 98 := by rw [hb3, length_bufCopy _ _ _ (by omega)]; exact L2
  set b4 := bufCopy ihash b3 16 with hb4
  have L4 : b4.length = 98 := by rw [hb4, length_bufCopy _ _ _ (by omega)]; exact L3
  set b5 := bufCopy pid b4 36 with hb5
  have L5 : b5.length = 98 := by rw [hb5, length_bufCopy _ _ _ (by omega)]; exact L4
  set b6 := bufCopy (List.replicate 8 0) b5 56 with hb6
  have L6 : b6.length = 98 := by rw [hb6, length_bufCopy _ _ _ (by omega)]; exact L5
  set b7 := bufCopy sz b6 64 with hb7
  have L7 : b7.length = 98 := by rw [hb7, length_bufCopy _ _ _ (by omega)]; exact L6
  set b8 := bufCopy (List.replicate 8 0) b7 72 with hb8
  have L8 : b8.length = 98 := by rw [hb8, length_bufCopy _ _ _ (by omega)]; exact L7
  set b9 := writeUInt32BE b8 0 80 with hb9
  have L9 : b9.length = 98 := by rw [hb9, length_write32 _ _ _ (by omega)]; exact L8
  set b10 := writeUInt32BE b9 0 80 with hb10
  have L10 : b10.length = 98 := by rw [hb10, length_write32 _ _ _ (by omega)]; exact L9
  set b11 := bufCopy key b10 88 with hb11
  have L11 : b11.length = 98 := by rw [hb11, length_bufCopy _ _ _ (by omega)]; exact L10
  set b12 := writeInt32BE b11 (-1) 92 with hb12
  have L12 : b12.length = 98 := by
    rw [hb12, writeInt32BE, length_write32 _ _ _ (by omega)]
    exact L11
  have T13 : (writeUInt16BE b12 p 96).take 8 = b12.take 8 :=
    take_write16 _ _ _ _ (by omega) (by omega)
  have T12 : b12.take 8 = b11.take 8 := by
    rw [hb12, writeInt32BE]
    exact take_write32 _ _ _ _ (by omega) (by omega)
  have T11 : b11.take 8 = b10.take 8 := by
    rw [hb11]
    exact take_bufCopy _ _ _ _ (by omega) (by omega)
  have T10 : b10.take 8 = b9.take 8 := by
    rw [hb10]
    exact take_write32 _ _ _ _ (by omega) (by omega)
  have T9 : b9.take 8 = b8.take 8 := by
    rw [hb9]
    exact take_write32 _ _ _ _ (by omega) (by omega)
  have T8 : b8.take 8 = b7.take 8 := by
    rw [hb8]
    exact take_bufCopy _ _ _ _ (by omega) (by omega)
  have T7 : b7.take 8 = b6.take 8 := by
    rw [hb7]
    exact take_bufCopy _ _ _ _ (by omega) (by omega)
  have T6 : b6.take 8 = b5.take 8 := by
    rw [hb6]
    exact take_bufCopy _ _ _ _ (by omega) (by omega)
  have T5 : b5.take 8 = b4.take 8 := by
    rw [hb5]
    exact take_bufCopy _ _ _ _ (by omega) (by omega)
  have T4 : b4.take 8 = b3.take 8 := by
    rw [hb4]
    exact take_bufCopy _ _ _ _ (by omega) (by omega)
  have T3 : b3.take 8 = b2.take 8 := by
    rw [hb3]
    exact take_bufCopy _ _ _ _ (by omega) (by omega)
  have T2 : b2.take 8 = b1.take 8 := by
    rw [hb2]
    exact take_write32 _ _ _ _ (by omega) (by omega)
  rw [T13, T12, T11, T10, T9, T8, T7, T6, T5, T4, T3, T2, hcopy8]
  exact List.take_left' hc8

/-- Witness for C10: a ten-byte connect response (no length-16 check)
parses successfully and yields the two-byte connection id 5, 6. -/
theorem parseConnResp_whole_suffix_connectionId_witness :
    ∃ r, parseConnResp [0, 0, 0, 0, 0, 0, 0, 9, 5, 6] = some r ∧
      r.connectionId = [5, 6] ∧ r.connectionId.length = 2 := by
  obtain ⟨r, h1, h2, h3, -, -⟩ :=
    parseConnResp_whole_suffix_connectionId [0, 0, 0, 0, 0, 0, 0, 9, 5, 6]
      (List.replicate 98 0) [] [] [] [] [] 0 (by decide) (by decide) (by decide)
  exact ⟨r, h1, by rw [h2]; rfl, by rw [h3]; rfl⟩

set_option maxRecDepth 8192 in
/-- Counterexample for C10: the claim asserts that the whole suffix is
always copied verbatim into the announce request, but for a 110-byte
connect response the connection id is the 102-byte suffix, and
Buffer.copy stops at the end of the 98-byte target, transferring only
the first 98 bytes of it. -/
theorem parseConnResp_long_suffix_truncated_on_copy :
    parseConnResp (List.replicate 110 1) =
      some ⟨16843009, 16843009, List.replicate 102 1⟩ ∧
    bufCopy (List.replicate 102 1) (List.replicate 98 0) 0 = List.replicate 98 1 ∧
    (List.replicate 98 1 : List Nat) ≠ List.replicate 102 1 := by
  decide

end BitTorrent
